import Mathlib

/-!
Verification of the house-finance repository core: transaction identity,
ledger reconciliation with checkpoint balances, cross-file deduplication,
and recurring-charge classification (`src/parsers/barclays_parser.py`,
`src/parsers/virgin_parser.py`, `src/rc_tracker.py`).

Modelling conventions (shallow embedding):
- Python `Decimal` amounts are embedded as `ℚ` (exact arithmetic; the
  claims only exercise values exact at two decimals, so the 28-digit
  context precision of `Decimal` division never matters here).
- `datetime` values are embedded as `ℚ` day numbers (possibly fractional,
  mirroring time-of-day); `timedelta.days` is `Int.floor` of the
  difference, matching Python's floor-towards-minus-infinity semantics.
- Python's stable `sorted(key=...)` is embedded as `List.insertionSort`,
  which is a stable sort and therefore produces the same list as timsort
  for any total preorder on the sort key.
- The float literal `0.2` in the source is embedded as `(1/5 : ℚ)`; the
  quantities it is compared against in the source are integers, and for
  the integer comparisons that actually occur the double `0.2` and the
  rational `1/5` decide identically.
-/

/-- Embeds the per-issuer transaction dataclasses (`BarclaysTransaction`,
`VirginTransaction`): the fields the core logic reads. -/
structure Tx where
  transaction_id : String
  date : ℚ
  amount : ℚ
  description : String
  type : String
  running_total : Option ℚ := none
deriving DecidableEq

/-- The sort key used everywhere in the source: ascending transaction date
(`key=lambda x: x.date`). -/
def dateLE (a b : Tx) : Prop := a.date ≤ b.date

instance : DecidableRel dateLE := fun a b => inferInstanceAs (Decidable (a.date ≤ b.date))

instance : IsTotal Tx dateLE := ⟨fun a b => le_total a.date b.date⟩

instance : IsTrans Tx dateLE := ⟨fun _ _ _ h1 h2 => le_trans h1 h2⟩

/-- Embeds `sorted(transactions, key=lambda x: x.date)` (stable sort by date). -/
def sortByDate (l : List Tx) : List Tx := l.insertionSort dateLE

/-- Embeds the inner loop of `RC_Tracker.sanitise`: scanning forward from the
transaction `x`, skip nothing (previously removed entries are not present in a
functional reading), stop at the first entry more than 7 days ahead
(`days_between > 7: break`), and return the index of the first entry whose
amount cancels `x` within `Decimal('0.01')`. -/
def findCancelIdx (x : Tx) : List Tx → Option Nat
  | [] => none
  | y :: ys =>
    if (7 : ℤ) < ⌊y.date - x.date⌋ then none
    else if |x.amount + y.amount| < 1/100 then some 0
    else (findCancelIdx x ys).map (· + 1)

/-- Embeds the outer loop of `RC_Tracker.sanitise` over the date-sorted list:
the current transaction either finds its nearest cancelling partner within the
7-day window (both are removed, indices `i` and `j` enter `to_remove`) or is
kept.  Entries already removed are exactly the ones no longer present in the
recursive call, which mirrors the `if i in to_remove: continue` skips. -/
def sanitiseAux : List Tx → List Tx
  | [] => []
  | x :: xs =>
    match findCancelIdx x xs with
    | none => x :: sanitiseAux xs
    | some j => sanitiseAux (xs.eraseIdx j)
termination_by l => l.length
decreasing_by
  all_goals simp [Nat.lt_succ_iff, List.length_eraseIdx_le]

/-- Embeds `RC_Tracker.sanitise`: sort by date, then remove cancelling pairs. -/
def sanitise (transactions : List Tx) : List Tx :=
  sanitiseAux (sortByDate transactions)

/-- Embeds Python's `str.lower()` (character-wise lowercasing). -/
def pyLower (s : String) : String := ⟨s.data.map Char.toLower⟩

/-- Embeds the day-count dictionary of `RC_Tracker._fits_interval_pattern`
(`.get(interval.lower(), 30)`: unknown intervals default to monthly). -/
def intervalDays (interval : String) : ℤ :=
  if pyLower interval == "monthly" then 30
  else if pyLower interval == "quarterly" then 90
  else if pyLower interval == "biannual" then 180
  else if pyLower interval == "annual" then 365
  else if pyLower interval == "weekly" then 7
  else if pyLower interval == "biweekly" then 14
  else 30

/-- Embeds `min(existing_dates, key=lambda d: abs(d - date))`: Python's `min`
keeps the first element and replaces it only on strict improvement of the key,
so the first minimiser wins. -/
def minByAbsDist (date : ℚ) (best : ℚ) : List ℚ → ℚ
  | [] => best
  | d :: ds => minByAbsDist date (if |d - date| < |best - date| then d else best) ds

/-- Embeds `RC_Tracker._fits_interval_pattern`.  `abs((date - closest).days)`
is `|⌊date - closest⌋|` (timedelta `.days` floors), and the float tolerance
`interval_days * 0.2` is embedded as `interval_days * (1/5)` (see header). -/
def fitsIntervalPattern (date : ℚ) (existingTrans : List Tx) (interval : String) : Bool :=
  match existingTrans.map (fun t => t.date) with
  | [] => true
  | d0 :: ds =>
    if pyLower interval == "irregular" then true
    else
      let iDays : ℤ := intervalDays interval
      let closest : ℚ := minByAbsDist date d0 ds
      let daysDiff : ℤ := |⌊date - closest⌋|
      decide (|(daysDiff : ℚ) - (iDays : ℚ)| ≤ (iDays : ℚ) * (1/5))

/-- Embeds line 71 of `rc_tracker.py`:
`(abs(trans.amount - avg_amount) / abs(avg_amount) < 0.2) if known_transactions
and avg_amount != 0 else True`.  The guard tests the unsanitised known list,
while `avg_amount` is `None` whenever the *sanitised* list is empty; in that
mismatch case Python evaluates `trans.amount - None` and raises `TypeError`,
embedded here as `none`. -/
def goodAmountDiff (t : Tx) (knownTransactions : List Tx) (avgAmount : Option ℚ) :
    Option Bool :=
  if knownTransactions ≠ [] ∧ avgAmount ≠ some 0 then
    match avgAmount with
    | none => none
    | some a => some (decide (|t.amount - a| / |a| < 1/5))
  else
    some true

/-- Embeds the candidate-acceptance loop of `RC_Tracker._load_transactions`
(lines 70-75): both checks are evaluated eagerly (so a `TypeError` in the
amount check propagates even for irregular patterns), and a candidate is kept
when `interval == 'irregular' or (good_amount_diff and good_interval)`. -/
def evalCandidates (known sanitised : List Tx) (avgAmount : Option ℚ)
    (interval : String) : List Tx → Option (List Tx)
  | [] => some []
  | t :: ts =>
    match goodAmountDiff t known avgAmount with
    | none => none
    | some gad =>
      let gi := fitsIntervalPattern t.date sanitised interval
      match evalCandidates known sanitised avgAmount interval ts with
      | none => none
      | some rest =>
        some (if interval == "irregular" || (gad && gi) then t :: rest else rest)

/-- Result of one pattern's classification pass: the fields of the
`recurring_charges[charge_name]` entry that the claims refer to
(`amount_range`, a string rendering of min/max/avg, is omitted). -/
structure RCResult where
  known_transactions : List Tx
  new_transactions : List Tx
  transaction_ids : List String
  status : String
deriving DecidableEq

/-- Embeds the per-pattern body of `RC_Tracker._load_transactions` (lines
46-113).  `pmatch` stands for `re.search(pattern, description, IGNORECASE)`,
`knownIds` for `set(config['transaction_ids'])` (hence the `dedup`), and the
global stream is sorted by date first (lines 37-40).  A `none` result models
the uncaught `TypeError` described at `goodAmountDiff`. -/
def classifyPattern (allTrans : List Tx) (pmatch : String → Bool) (interval : String)
    (knownIds : List String) (status : String) : Option RCResult :=
  let sortedAll := sortByDate allTrans
  let known := sortedAll.filter (fun t => knownIds.contains t.transaction_id)
  let cands := sortedAll.filter
    (fun t => !knownIds.contains t.transaction_id && pmatch t.description)
  let sanitised := sanitise known
  let avgAmount : Option ℚ :=
    if sanitised = [] then none
    else some ((sanitised.map (fun t => t.amount)).sum / sanitised.length)
  match evalCandidates known sanitised avgAmount interval cands with
  | none => none
  | some newTs =>
    some { known_transactions := known
           new_transactions := newTs
           transaction_ids :=
             (knownIds.dedup ++ newTs.map (fun t => t.transaction_id)).insertionSort (· ≤ ·)
           status := status }

/-- Rounds a rational to the nearest integer, ties to even: the rounding mode
(`ROUND_HALF_EVEN`) Python's `format` applies to `Decimal` values. -/
def roundHalfEven (q : ℚ) : ℤ :=
  let f := ⌊q⌋
  if q - f < 1/2 then f
  else if 1/2 < q - f then f + 1
  else if f % 2 = 0 then f else f + 1

/-- Renders a natural number with at least two digits (`09`, `42`). -/
def twoDigits (n : ℕ) : String :=
  (if n < 10 then "0" else "") ++ toString n

/-- Embeds the f-string `f"{amount:.2f}"` applied to a `Decimal`: sign,
integer part, dot, exactly two fractional digits. -/
def fmtAmount2dp (a : ℚ) : String :=
  let c := roundHalfEven (a * 100)
  (if c < 0 then "-" else "") ++ toString (c.natAbs / 100) ++ "." ++ twoDigits (c.natAbs % 100)

/-- Embeds the `id_string` of `BarclaysOFXParser._generate_transaction_id`:
`subfolder|YYYYMMDD|amount:.2f|description|trans_type` with the SIGNED amount.
The SHA-256 truncation applied afterwards is not modelled; the pre-image
string is taken as the identity (a collision-free idealisation). -/
def barclaysIdString (subfolder dateStr : String) (amount : ℚ)
    (description transType : String) : String :=
  subfolder ++ "|" ++ dateStr ++ "|" ++ fmtAmount2dp amount ++ "|" ++ description
    ++ "|" ++ transType

/-- Embeds the `id_string` of `VirginCSVParser._generate_transaction_id`:
`subfolder|YYYYMMDD|abs(amount):.2f|description`, with the amount taken in
absolute value and no type component. -/
def virginIdString (subfolder dateStr : String) (amount : ℚ)
    (description : String) : String :=
  subfolder ++ "|" ++ dateStr ++ "|" ++ fmtAmount2dp |amount| ++ "|" ++ description

/-- The persisted checkpoint store (`ledger_amounts.properties`, section
`LedgerAmounts`): an ordered key/value list.  A value `none` models a key
whose stored text is the empty string (the auto-created placeholder); `some q`
models numeric text parsed by `Decimal`. -/
abbrev LedgerStore := List (String × Option ℚ)

/-- Stand-in for `start_date.strftime('%Y-%m-%d')`: an injective rendering of
the calendar day of a day-number date. -/
def dayKey (d : ℚ) : String := toString ⌊d⌋

/-- Embeds `_read_ledger_amount` (identical in the Barclays and Virgin
parsers): look up `subfolder|date`; an empty stored value reads as
`Decimal(0)`; an absent key is appended as an empty placeholder, the new store
is written back, and `None` is returned. -/
def readLedgerAmount (store : LedgerStore) (subfolder dateStr : String) :
    Option ℚ × LedgerStore :=
  let key := subfolder ++ "|" ++ dateStr
  match store.lookup key with
  | some none => (some 0, store)
  | some (some v) => (some v, store)
  | none => (none, store ++ [(key, none)])

/-- Embeds the running-total loop (`running_total += transaction.amount;
transaction.running_total = running_total`), returning the updated list. -/
def attachRunning (bal : ℚ) : List Tx → List Tx
  | [] => []
  | t :: ts => { t with running_total := some (bal + t.amount) }
      :: attachRunning (bal + t.amount) ts

/-- The running-value sequence `checkpoint + Σ(amount)` taken after each
amount in turn. -/
def runningTotals (bal : ℚ) : List ℚ → List ℚ
  | [] => []
  | a :: as => (bal + a) :: runningTotals (bal + a) as

/-- A Barclays OFX file as the core consumes it: the account id extracted
from `ACCTID` (empty string models a missing tag) and the transactions parsed
from the `STMTTRN` blocks, in file order (Barclays delivers newest first). -/
structure OfxFile where
  acctid : String
  fileTrans : List Tx
deriving DecidableEq

/-- Embeds the `BarclaysStatement` dataclass. -/
structure BStatement where
  account_id : String
  start_date : ℚ
  end_date : ℚ
  start_balance : ℚ
  end_balance : ℚ
  transactions : List Tx
deriving DecidableEq

/-- Embeds `BarclaysOFXParser._parse_ofx_file` from the point where the
transaction blocks have been parsed: reverse to oldest-first, anchor on the
ledger amount keyed by the first (reversed) transaction's date, attach running
totals, and build the statement.  `start_balance` is `ledger_bal - Σ(amount)`
and `end_balance` is `ledger_bal` itself.  An empty `ACCTID` or an empty
transaction list ends in the broad `except` handler and yields `None`. -/
def parseOfxFile (store : LedgerStore) (subfolder : String) (f : OfxFile) :
    Option BStatement × LedgerStore :=
  if f.acctid = "" then (none, store)
  else
    match f.fileTrans.reverse with
    | [] => (none, store)
    | t0 :: rest =>
      match readLedgerAmount store subfolder (dayKey t0.date) with
      | (none, store1) => (none, store1)
      | (some bal, store1) =>
        let ts := t0 :: rest
        (some { account_id := f.acctid
                start_date := t0.date
                end_date := (ts.getLastD t0).date
                start_balance := bal - (ts.map (fun t => t.amount)).sum
                end_balance := bal
                transactions := sortByDate (attachRunning bal ts) }, store1)

/-- Embeds the per-statement filter of `BarclaysOFXParser.parse_all_statements`:
walk the transactions in order, keep those whose id is not yet in
`seen_transactions`, and add every kept id to the set. -/
def filterSeen (seen : List String) : List Tx → List Tx × List String
  | [] => ([], seen)
  | t :: ts =>
    if seen.contains t.transaction_id then filterSeen seen ts
    else
      let p := filterSeen (t.transaction_id :: seen) ts
      (t :: p.1, p.2)

/-- Smallest transaction date of `t :: ts` (`min(t.date for t in ...)`). -/
def minTxDate (t : Tx) (ts : List Tx) : ℚ := ts.foldl (fun m x => min m x.date) t.date

/-- Largest transaction date of `t :: ts` (`max(t.date for t in ...)`). -/
def maxTxDate (t : Tx) (ts : List Tx) : ℚ := ts.foldl (fun m x => max m x.date) t.date

/-- Embeds the file loop of `BarclaysOFXParser.parse_all_statements`: one
seen-identity set threads through ALL files; a parsed statement keeps only
unseen transactions, its date span is recomputed over them, and it is dropped
when none remain.  The checkpoint store threads through the per-file parses
(each miss appends its placeholder). -/
def parseAllAux (subfolder : String) :
    List OfxFile → List String → LedgerStore → List BStatement × LedgerStore
  | [], _, store => ([], store)
  | f :: fs, seen, store =>
    match parseOfxFile store subfolder f with
    | (none, store1) => parseAllAux subfolder fs seen store1
    | (some st, store1) =>
      let p := filterSeen seen st.transactions
      match p.1 with
      | [] => parseAllAux subfolder fs p.2 store1
      | u :: us =>
        let rest := parseAllAux subfolder fs p.2 store1
        ({ st with transactions := u :: us
                   start_date := minTxDate u us
                   end_date := maxTxDate u us } :: rest.1, rest.2)

/-- Statement order used by both parsers: ascending start date. -/
def startDateLE (a b : BStatement) : Prop := a.start_date ≤ b.start_date

instance : DecidableRel startDateLE :=
  fun a b => inferInstanceAs (Decidable (a.start_date ≤ b.start_date))

/-- Embeds `BarclaysOFXParser.parse_all_statements` over a folder listing
`files` (glob order): dedup across files, then sort statements by start date. -/
def parseAllStatements (store : LedgerStore) (subfolder : String)
    (files : List OfxFile) : List BStatement × LedgerStore :=
  let r := parseAllAux subfolder files [] store
  (r.1.insertionSort startDateLE, r.2)

/-- Embeds the `VirginStatement` dataclass (no balance fields). -/
structure VStatement where
  account_name : String
  start_date : ℚ
  end_date : ℚ
  transactions : List Tx
deriving DecidableEq

/-- Embeds `VirginCSVParser._parse_csv_file` from the point where the CSV rows
have been parsed into transactions: empty list yields `None`, otherwise sort
by date, anchor on the ledger amount keyed by the earliest date, attach
running totals and build the statement. -/
def parseCsvFile (store : LedgerStore) (subfolder : String) (rows : List Tx) :
    Option VStatement × LedgerStore :=
  match sortByDate rows with
  | [] => (none, store)
  | t0 :: rest =>
    match readLedgerAmount store subfolder (dayKey t0.date) with
    | (none, store1) => (none, store1)
    | (some bal, store1) =>
      let ts := t0 :: rest
      (some { account_name := subfolder
              start_date := t0.date
              end_date := (ts.getLastD t0).date
              transactions := attachRunning bal ts }, store1)

/-- Statement order for Virgin statements: ascending start date. -/
def vStartDateLE (a b : VStatement) : Prop := a.start_date ≤ b.start_date

instance : DecidableRel vStartDateLE :=
  fun a b => inferInstanceAs (Decidable (a.start_date ≤ b.start_date))

/-- Embeds the file loop of `VirginCSVParser.parse_all_statements`: every
successfully parsed statement is collected as-is — there is no seen-identity
set and no cross-file filtering in this parser. -/
def virginParseAllAux (subfolder : String) :
    List (List Tx) → LedgerStore → List VStatement × LedgerStore
  | [], store => ([], store)
  | f :: fs, store =>
    match parseCsvFile store subfolder f with
    | (none, store1) => virginParseAllAux subfolder fs store1
    | (some st, store1) =>
      let rest := virginParseAllAux subfolder fs store1
      (st :: rest.1, rest.2)

/-- Embeds `VirginCSVParser.parse_all_statements` over a folder listing
`files` (glob order, each file given as its parsed transaction rows). -/
def virginParseAllStatements (store : LedgerStore) (subfolder : String)
    (files : List (List Tx)) : List VStatement × LedgerStore :=
  let r := virginParseAllAux subfolder files store
  (r.1.insertionSort vStartDateLE, r.2)

/-- Two transactions in date order that do NOT form a cancelling pair: either
more than 7 days apart or their amounts do not sum to within 0.01 of zero. -/
def noCancel (a b : Tx) : Prop :=
  ⌊b.date - a.date⌋ ≤ 7 → ¬ |a.amount + b.amount| < 1/100

theorem sanitiseAux_sublist (l : List Tx) : List.Sublist (sanitiseAux l) l := by
  induction l using sanitiseAux.induct with
  | case1 => simp [sanitiseAux]
  | case2 x xs h ih =>
    rw [sanitiseAux, h]
    exact ih.cons₂ x
  | case3 x xs j h ih =>
    rw [sanitiseAux, h]
    exact (ih.trans (List.eraseIdx_sublist xs j)).cons x

theorem findCancelIdx_eq_none (x : Tx) (xs : List Tx)
    (h : ∀ y ∈ xs, noCancel x y) : findCancelIdx x xs = none := by
  induction xs with
  | nil => rfl
  | cons y ys ih =>
    rw [findCancelIdx]
    by_cases hw : (7 : ℤ) < ⌊y.date - x.date⌋
    · simp [hw]
    · have hok := h y (by simp) (le_of_not_lt hw)
      simp only [if_neg hw, if_neg hok]
      rw [ih (fun z hz => h z (by simp [hz]))]
      rfl

theorem noCancel_of_findCancelIdx_eq_none (x : Tx) (xs : List Tx)
    (hs : xs.Pairwise dateLE) (h : findCancelIdx x xs = none) :
    ∀ y ∈ xs, noCancel x y := by
  induction xs with
  | nil => simp
  | cons y ys ih =>
    rw [findCancelIdx] at h
    by_cases hw : (7 : ℤ) < ⌊y.date - x.date⌋
    · intro z hz hfloor
      rcases List.mem_cons.1 hz with hz | hz
      · subst hz
        exact absurd hfloor (not_le_of_lt hw)
      · have hyz : y.date ≤ z.date := (List.pairwise_cons.1 hs).1 z hz
        have hff : ⌊y.date - x.date⌋ ≤ ⌊z.date - x.date⌋ :=
          Int.floor_le_floor (by linarith)
        exact absurd hfloor (not_le_of_lt (lt_of_lt_of_le hw hff))
    · rw [if_neg hw] at h
      by_cases hc : |x.amount + y.amount| < 1/100
      · rw [if_pos hc] at h
        cases h
      · rw [if_neg hc] at h
        have hrec : findCancelIdx x ys = none := by
          cases hfc : findCancelIdx x ys with
          | none => rfl
          | some k => rw [hfc] at h; cases h
        intro z hz
        rcases List.mem_cons.1 hz with hz | hz
        · subst hz
          exact fun _ => hc
        · exact ih (List.pairwise_cons.1 hs).2 hrec z hz

theorem sanitiseAux_pairwise_noCancel (l : List Tx) (hs : l.Pairwise dateLE) :
    (sanitiseAux l).Pairwise noCancel := by
  induction l using sanitiseAux.induct with
  | case1 => simp [sanitiseAux]
  | case2 x xs h ih =>
    rw [sanitiseAux, h]
    refine List.pairwise_cons.2 ⟨?_, ih (List.pairwise_cons.1 hs).2⟩
    intro y hy
    exact noCancel_of_findCancelIdx_eq_none x xs (List.pairwise_cons.1 hs).2 h y
      ((sanitiseAux_sublist xs).subset hy)
  | case3 x xs j h ih =>
    rw [sanitiseAux, h]
    exact ih ((List.pairwise_cons.1 hs).2.sublist (List.eraseIdx_sublist xs j))

theorem sanitiseAux_eq_self (l : List Tx) (hok : l.Pairwise noCancel) :
    sanitiseAux l = l := by
  induction l using sanitiseAux.induct with
  | case1 => simp [sanitiseAux]
  | case2 x xs h ih =>
    rw [sanitiseAux, h, ih (List.pairwise_cons.1 hok).2]
  | case3 x xs j h _ =>
    have := findCancelIdx_eq_none x xs (List.pairwise_cons.1 hok).1
    rw [this] at h
    cases h

theorem sanitise_pairwise_dateLE (l : List Tx) : (sanitise l).Pairwise dateLE :=
  List.Pairwise.sublist (sanitiseAux_sublist _) (List.sorted_insertionSort dateLE l)

/-- C6 — sanitise is idempotent: applying `sanitise` to the result of
`sanitise` returns that result unchanged (the output of `sanitise` contains
no cancelling pair, so a second pass removes nothing). -/
theorem sanitise_idempotent (l : List Tx) : sanitise (sanitise l) = sanitise l := by
  have h2 : (sanitise l).Pairwise dateLE := sanitise_pairwise_dateLE l
  have h3 : (sanitise l).Pairwise noCancel :=
    sanitiseAux_pairwise_noCancel _ (List.sorted_insertionSort dateLE l)
  show sanitiseAux (sortByDate (sanitise l)) = sanitise l
  rw [sortByDate, List.Sorted.insertionSort_eq h2]
  exact sanitiseAux_eq_self _ h3

/-! Concrete data used by the closed scenario theorems.  Dates are day
numbers within 2024: Jan 5 = 5, Feb 4 = 35, Feb 20 = 51. -/

/-- A monthly subscription charge known on 2024-01-05. -/
def txJan5 : Tx :=
  { transaction_id := "j5", date := 5, amount := -(999/100), description := "SUB"
    type := "DEBIT" }

/-- A lone NETFLIX transaction, not yet known to any pattern. -/
def txNetflix : Tx :=
  { transaction_id := "id1", date := 10, amount := -(999/100), description := "NETFLIX"
    type := "DEBIT" }

/-- A known GYM charge (2024-01-01, +10.00). -/
def txGym1 : Tx :=
  { transaction_id := "k1", date := 1, amount := 10, description := "GYM"
    type := "DEBIT" }

/-- The refund cancelling `txGym1` one day later (-10.00). -/
def txGym2 : Tx :=
  { transaction_id := "k2", date := 2, amount := -10, description := "GYM REFUND"
    type := "CREDIT" }

/-- A fresh GYM candidate a month later. -/
def txGym3 : Tx :=
  { transaction_id := "c1", date := 32, amount := 10, description := "GYM"
    type := "DEBIT" }

theorem fitsIntervalPattern_eq_of_closest (date : ℚ) (ts : List Tx) (s : String)
    (d0 x : ℚ) (ds : List ℚ) (hmap : ts.map (fun t => t.date) = d0 :: ds)
    (hirr : (pyLower s == "irregular") = false)
    (hc : minByAbsDist date d0 ds = date - x) :
    fitsIntervalPattern date ts s =
      decide (|((|⌊x⌋| : ℤ) : ℚ) - (intervalDays s : ℚ)| ≤ (intervalDays s : ℚ) * (1/5)) := by
  rw [fitsIntervalPattern, hmap]
  simp only [hirr, Bool.false_eq_true, if_false]
  rw [hc]
  have h1 : date - (date - x) = x := by ring
  rw [h1]

theorem intervalDays_weekly : intervalDays "weekly" = 7 := by decide

theorem intervalDays_biweekly : intervalDays "biweekly" = 14 := by decide

theorem intervalDays_monthly : intervalDays "monthly" = 30 := by decide

theorem intervalDays_quarterly : intervalDays "quarterly" = 90 := by decide

theorem intervalDays_biannual : intervalDays "biannual" = 180 := by decide

theorem intervalDays_annual : intervalDays "annual" = 365 := by decide

/-- C9 — interval tolerance.  For each non-irregular interval with canonical
day-count D, a candidate whose nearest known transaction lies exactly D days
earlier passes `_fits_interval_pattern`, and one whose nearest known
transaction lies exactly 1.3 × D days earlier fails it; concretely, for a
monthly pattern known on 2024-01-05 (day 5), a candidate on 2024-02-04
(day 35) is accepted and one on 2024-02-20 (day 51) is rejected. -/
theorem c9_interval_tolerance (s : String) (D : ℤ)
    (hs : (s, D) ∈ [("weekly", (7 : ℤ)), ("biweekly", 14), ("monthly", 30),
      ("quarterly", 90), ("biannual", 180), ("annual", 365)])
    (ts : List Tx) (date d0 : ℚ) (ds : List ℚ)
    (hmap : ts.map (fun t => t.date) = d0 :: ds) :
    (minByAbsDist date d0 ds = date - (D : ℚ) →
      fitsIntervalPattern date ts s = true) ∧
    (minByAbsDist date d0 ds = date - (13 * (D : ℚ)) / 10 →
      fitsIntervalPattern date ts s = false) ∧
    fitsIntervalPattern 35 [txJan5] "monthly" = true ∧
    fitsIntervalPattern 51 [txJan5] "monthly" = false := by
  refine ⟨?_, ?_, ?_, ?_⟩
  · intro hc
    fin_cases hs <;>
      rw [fitsIntervalPattern_eq_of_closest _ _ _ _ _ _ hmap (by decide) hc] <;>
        simp only [decide_eq_true_eq, intervalDays_weekly, intervalDays_biweekly,
          intervalDays_monthly, intervalDays_quarterly, intervalDays_biannual,
          intervalDays_annual] <;>
      norm_num
  · intro hc
    fin_cases hs <;>
      rw [fitsIntervalPattern_eq_of_closest _ _ _ _ _ _ hmap (by decide) hc] <;>
        simp only [decide_eq_false_iff_not, intervalDays_weekly, intervalDays_biweekly,
          intervalDays_monthly, intervalDays_quarterly, intervalDays_biannual,
          intervalDays_annual] <;>
      norm_num
  · rw [fitsIntervalPattern_eq_of_closest 35 [txJan5] "monthly" 5 30 []
      (by simp [txJan5]) (by decide) (by simp [minByAbsDist]; norm_num)]
    simp only [decide_eq_true_eq, intervalDays_monthly]
    norm_num
  · rw [fitsIntervalPattern_eq_of_closest 51 [txJan5] "monthly" 5 46 []
      (by simp [txJan5]) (by decide) (by simp [minByAbsDist]; norm_num)]
    simp only [decide_eq_false_iff_not, intervalDays_monthly]
    norm_num

theorem c9_interval_tolerance_witness :
    fitsIntervalPattern 35 [txJan5] "monthly" = true ∧
    fitsIntervalPattern 51 [txJan5] "monthly" = false := by
  have h := c9_interval_tolerance "monthly" 30 (by decide) [txJan5] 35 5 []
    (by simp [txJan5])
  refine ⟨h.1 ?_, h.2.2.2⟩
  simp [minByAbsDist]
  norm_num

/-- C7 (amended) — the persisted status has no effect on classification: for
any two status values the per-pattern run produces identical known lists, new
(accepted) candidate lists and persisted transaction-id lists; only the stored
status string itself differs. -/
theorem c7_status_ignored (allT : List Tx) (pm : String → Bool) (interval : String)
    (ids : List String) (s1 s2 : String) :
    (classifyPattern allT pm interval ids s1).map
      (fun r => (r.known_transactions, r.new_transactions, r.transaction_ids)) =
    (classifyPattern allT pm interval ids s2).map
      (fun r => (r.known_transactions, r.new_transactions, r.transaction_ids)) := by
  dsimp only [classifyPattern]
  split <;> rfl

/-- C7 counterexample — a pattern whose persisted status is `cancelled` still
accepts a matching candidate: its new-transaction list is `[txNetflix]` (not
empty) and its persisted id list grows from `[]` to `["id1"]`. -/
theorem c7_cancelled_accepts_cex :
    (classifyPattern [txNetflix] (fun d => d == "NETFLIX") "irregular" []
        "cancelled").map (fun r => (r.new_transactions, r.transaction_ids)) =
      some ([txNetflix], ["id1"]) ∧ (["id1"] : List String) ≠ ([] : List String) := by
  constructor
  · simp [classifyPattern, sortByDate, List.insertionSort, List.orderedInsert,
      sanitise, sanitiseAux, evalCandidates, goodAmountDiff, fitsIntervalPattern,
      txNetflix]
  · simp

/-- C8 — when the known set is non-empty but sanitisation removes all of it as
cancelling pairs, the candidate evaluation crashes (models the `TypeError`
from `trans.amount - None`): the GYM pattern knows a +10.00 and a -10.00
charge one day apart, so the sanitised baseline is empty, `avg_amount` is `None`, the
guard `known_transactions and avg_amount != 0` still takes the comparison
branch, and the run aborts instead of accepting the candidate. -/
theorem c8_empty_sanitised_avg_crash :
    classifyPattern [txGym1, txGym2, txGym3] (fun d => d == "GYM") "monthly"
      ["k1", "k2"] "running" = none := by
  norm_num [classifyPattern, sortByDate, List.insertionSort, List.orderedInsert,
    sanitise, sanitiseAux, findCancelIdx, evalCandidates, goodAmountDiff,
    fitsIntervalPattern, dateLE, txGym1, txGym2, txGym3, List.filter]
  simp

/-- C3 counterexample — the Barclays id generator does NOT hash the absolute
amount: two inputs identical except for the sign of the amount (type included
and equal) produce different id strings, "-20.00" versus "20.00" in the
amount component. -/
theorem c3_barclays_signed_amount_cex :
    barclaysIdString "barclays-current" "20240102" (-20) "X" "DEBIT" ≠
      barclaysIdString "barclays-current" "20240102" 20 "X" "DEBIT" := by
  have h1 : roundHalfEven ((-20 : ℚ) * 100) = -2000 := by norm_num [roundHalfEven]
  have h2 : roundHalfEven ((20 : ℚ) * 100) = 2000 := by norm_num [roundHalfEven]
  simp only [barclaysIdString, fmtAmount2dp, h1, h2]
  decide

/-- C3 (amended) — only the Virgin id generator normalises the amount to its
absolute value at two decimals: its id string is invariant under flipping the
amount's sign (the Barclays generator keeps the signed amount, see the
counterexample). -/
theorem c3_virgin_abs_amount (sub dateStr : String) (a : ℚ) (desc : String) :
    virginIdString sub dateStr a desc = virginIdString sub dateStr (-a) desc := by
  simp [virginIdString, abs_neg]

theorem attachRunning_map_amount (b : ℚ) (l : List Tx) :
    (attachRunning b l).map (fun t => t.amount) = l.map (fun t => t.amount) := by
  induction l generalizing b with
  | nil => rfl
  | cons t ts ih => simp [attachRunning, ih]

theorem attachRunning_map_date (b : ℚ) (l : List Tx) :
    (attachRunning b l).map (fun t => t.date) = l.map (fun t => t.date) := by
  induction l generalizing b with
  | nil => rfl
  | cons t ts ih => simp [attachRunning, ih]

theorem attachRunning_map_running (b : ℚ) (l : List Tx) :
    (attachRunning b l).map (fun t => t.running_total) =
      (runningTotals b (l.map (fun t => t.amount))).map some := by
  induction l generalizing b with
  | nil => rfl
  | cons t ts ih => simp [attachRunning, runningTotals, ih]

theorem attachRunning_pairwise (b : ℚ) (l : List Tx) (h : l.Pairwise dateLE) :
    (attachRunning b l).Pairwise dateLE := by
  induction l generalizing b with
  | nil => exact List.Pairwise.nil
  | cons t ts ih =>
    rw [attachRunning]
    refine List.pairwise_cons.2 ⟨?_, ih _ (List.pairwise_cons.1 h).2⟩
    intro y hy
    have hd : y.date ∈ (attachRunning (b + t.amount) ts).map (fun t => t.date) :=
      List.mem_map_of_mem _ hy
    rw [attachRunning_map_date] at hd
    obtain ⟨z, hz, hzd⟩ := List.mem_map.1 hd
    show ({ t with running_total := some (b + t.amount) } : Tx).date ≤ y.date
    rw [← hzd]
    exact (List.pairwise_cons.1 h).1 z hz

theorem readLedgerAmount_of_lookup (store : LedgerStore) (sub dateStr : String)
    (v : Option ℚ) (hl : store.lookup (sub ++ "|" ++ dateStr) = some v) :
    readLedgerAmount store sub dateStr = (some (v.getD 0), store) := by
  rw [readLedgerAmount, hl]
  cases v <;> rfl

theorem readLedgerAmount_of_miss (store : LedgerStore) (sub dateStr : String)
    (hl : store.lookup (sub ++ "|" ++ dateStr) = none) :
    readLedgerAmount store sub dateStr =
      (none, store ++ [(sub ++ "|" ++ dateStr, none)]) := by
  rw [readLedgerAmount, hl]

theorem parseOfxFile_found (store : LedgerStore) (sub : String) (f : OfxFile)
    (t0 : Tx) (rest : List Tx) (v : Option ℚ)
    (ha : f.acctid ≠ "") (hrev : f.fileTrans.reverse = t0 :: rest)
    (hl : store.lookup (sub ++ "|" ++ dayKey t0.date) = some v) :
    parseOfxFile store sub f =
      (some { account_id := f.acctid
              start_date := t0.date
              end_date := ((t0 :: rest).getLastD t0).date
              start_balance := v.getD 0 - ((t0 :: rest).map (fun t => t.amount)).sum
              end_balance := v.getD 0
              transactions := sortByDate (attachRunning (v.getD 0) (t0 :: rest)) },
        store) := by
  rw [parseOfxFile, if_neg ha, hrev]
  simp only [readLedgerAmount_of_lookup store sub (dayKey t0.date) v hl]

/-- C5 — missing checkpoint: when the store has no entry for the key built
from the account scope and the earliest transaction date, the parse of that
file yields no statement, the store gains an empty placeholder under exactly
that key, and the file loop continues with the remaining sibling files on the
updated store. -/
theorem c5_missing_checkpoint (store : LedgerStore) (sub : String) (f : OfxFile)
    (t0 : Tx) (rest : List Tx)
    (ha : f.acctid ≠ "") (hrev : f.fileTrans.reverse = t0 :: rest)
    (_hpw : (t0 :: rest).Pairwise dateLE)
    (hl : store.lookup (sub ++ "|" ++ dayKey t0.date) = none) :
    parseOfxFile store sub f =
      (none, store ++ [(sub ++ "|" ++ dayKey t0.date, none)]) ∧
    ∀ (fs : List OfxFile) (seen : List String),
      parseAllAux sub (f :: fs) seen store =
        parseAllAux sub fs seen (store ++ [(sub ++ "|" ++ dayKey t0.date, none)]) := by
  have h1 : parseOfxFile store sub f =
      (none, store ++ [(sub ++ "|" ++ dayKey t0.date, none)]) := by
    rw [parseOfxFile, if_neg ha, hrev]
    simp only [readLedgerAmount_of_miss store sub (dayKey t0.date) hl]
  exact ⟨h1, fun fs seen => by rw [parseAllAux, h1]⟩

theorem lookup_append_right (k : String) (l1 l2 : LedgerStore)
    (h : List.lookup k l1 = none) : List.lookup k (l1 ++ l2) = List.lookup k l2 := by
  induction l1 with
  | nil => rfl
  | cons p ps ih =>
    obtain ⟨k1, v1⟩ := p
    simp only [List.cons_append, List.lookup] at h ⊢
    cases hk : (k == k1) with
    | true => rw [hk] at h; simp at h
    | false => rw [hk] at h; exact ih h

/-- C10 — a checkpoint key present with an empty value reads as balance zero:
after a first run misses the key and appends the empty placeholder, running
the same file against the updated store succeeds, with closing balance 0 and
opening balance `0 - Σ(amounts)` (the statement reconciles anchored at 0
instead of failing again). -/
theorem c10_empty_checkpoint_zero (store : LedgerStore) (sub : String) (f : OfxFile)
    (t0 : Tx) (rest : List Tx)
    (ha : f.acctid ≠ "") (hrev : f.fileTrans.reverse = t0 :: rest)
    (hl : store.lookup (sub ++ "|" ++ dayKey t0.date) = none) :
    (parseOfxFile store sub f).1 = none ∧
    (parseOfxFile store sub f).2 = store ++ [(sub ++ "|" ++ dayKey t0.date, none)] ∧
    readLedgerAmount (store ++ [(sub ++ "|" ++ dayKey t0.date, none)]) sub
        (dayKey t0.date) =
      (some 0, store ++ [(sub ++ "|" ++ dayKey t0.date, none)]) ∧
    (parseOfxFile (store ++ [(sub ++ "|" ++ dayKey t0.date, none)]) sub f).1.map
        (fun st => (st.end_balance, st.start_balance)) =
      some (0, 0 - ((t0 :: rest).map (fun t => t.amount)).sum) := by
  have hmiss : parseOfxFile store sub f =
      (none, store ++ [(sub ++ "|" ++ dayKey t0.date, none)]) := by
    rw [parseOfxFile, if_neg ha, hrev]
    simp only [readLedgerAmount_of_miss store sub (dayKey t0.date) hl]
  have hl2 : (store ++ [(sub ++ "|" ++ dayKey t0.date, none)]).lookup
      (sub ++ "|" ++ dayKey t0.date) = some none := by
    rw [lookup_append_right _ _ _ hl]
    simp [List.lookup]
  refine ⟨by rw [hmiss], by rw [hmiss], ?_, ?_⟩
  · have := readLedgerAmount_of_lookup _ sub (dayKey t0.date) none hl2
    simpa using this
  · rw [parseOfxFile_found _ sub f t0 rest none ha hrev hl2]
    simp [Option.getD]

/-- C1 (amended) — reconciliation against a present checkpoint `b`: each
transaction's running total is `b` plus the cumulative sum of amounts in date
order, but the statement's closing balance is set to the checkpoint `b`
itself (not the final accumulated value) and the opening balance to
`b - Σ(amounts)`. -/
theorem c1_running_totals_amended (store : LedgerStore) (sub : String) (f : OfxFile)
    (t0 : Tx) (rest : List Tx) (b : ℚ)
    (ha : f.acctid ≠ "") (hrev : f.fileTrans.reverse = t0 :: rest)
    (hpw : (t0 :: rest).Pairwise dateLE)
    (hl : store.lookup (sub ++ "|" ++ dayKey t0.date) = some (some b)) :
    (parseOfxFile store sub f).2 = store ∧
    (parseOfxFile store sub f).1.map
        (fun st => (st.transactions.map (fun t => t.running_total),
                    st.end_balance, st.start_balance)) =
      some ((runningTotals b ((t0 :: rest).map (fun t => t.amount))).map some,
            b, b - ((t0 :: rest).map (fun t => t.amount)).sum) := by
  rw [parseOfxFile_found store sub f t0 rest (some b) ha hrev hl]
  refine ⟨rfl, ?_⟩
  have hsort : sortByDate (attachRunning b (t0 :: rest)) = attachRunning b (t0 :: rest) := by
    rw [sortByDate]
    exact List.Sorted.insertionSort_eq (attachRunning_pairwise b _ hpw)
  simp only [Option.map_some', Option.getD_some, hsort, attachRunning_map_running]

/-- The older scenario transaction: 2024-01-02 (day 2), -20.00. -/
def txX : Tx :=
  { transaction_id := "idX", date := 2, amount := -20, description := "X"
    type := "DEBIT" }

/-- The newer scenario transaction: 2024-01-03 (day 3), +5.00. -/
def txY : Tx :=
  { transaction_id := "idY", date := 3, amount := 5, description := "Y"
    type := "CREDIT" }

/-- The scenario OFX file: newest-first content, as Barclays delivers it. -/
def ofxC1 : OfxFile := { acctid := "a1", fileTrans := [txY, txX] }

/-- A checkpoint store holding 100.00 for the scenario file's earliest
transaction date. -/
def storeC1 : LedgerStore := [("acct" ++ "|" ++ dayKey (2 : ℚ), some 100)]

theorem c1_running_totals_amended_witness :
    (parseOfxFile storeC1 "acct" ofxC1).2 = storeC1 ∧
    (parseOfxFile storeC1 "acct" ofxC1).1.map
        (fun st => (st.transactions.map (fun t => t.running_total),
                    st.end_balance, st.start_balance)) =
      some ((runningTotals 100 ([txX, txY].map (fun t => t.amount))).map some,
            100, 100 - ([txX, txY].map (fun t => t.amount)).sum) :=
  c1_running_totals_amended storeC1 "acct" ofxC1 txX [txY] 100 (by decide) rfl
    (by simp [List.pairwise_cons, dateLE, txX, txY]; norm_num)
    (by simp [storeC1, txX, List.lookup])

/-- C1 counterexample — at the spec's own scenario (checkpoint 100.00,
amounts -20.00 and +5.00 on consecutive days) the running totals are indeed
[80.00, 85.00], but the statement's closing balance is 100.00, not the final
accumulated value 85.00 the claim requires. -/
theorem c1_closing_balance_cex :
    (parseOfxFile storeC1 "acct" ofxC1).1.map
        (fun st => (st.transactions.map (fun t => t.running_total),
                    st.end_balance)) =
      some ([some 80, some 85], 100) ∧ ((100 : ℚ) ≠ 85) := by
  constructor
  · rw [parseOfxFile_found storeC1 "acct" ofxC1 txX [txY] (some 100) (by decide) rfl
      (by simp [storeC1, txX, List.lookup])]
    norm_num [sortByDate, List.insertionSort, List.orderedInsert, attachRunning,
      dateLE, txX, txY]
  · norm_num

/-- C2 (amended) — for every statement as built per file (before the
cross-file duplicate filter), the closing balance equals the opening balance
plus the sum of the amounts of the transactions the statement contains, and
(when the file's reversed transaction list is in date order) each
transaction's running total is the checkpoint — which equals the closing
balance — plus the cumulative sum of contained amounts up to and including
it.  `parse_all_statements` then filters transactions without recomputing the
balances, so the equality can fail for statements that lost duplicates (see
the counterexample). -/
theorem c2_per_file_balance_amended (store : LedgerStore) (sub : String)
    (f : OfxFile) (st : BStatement) (store1 : LedgerStore)
    (h : parseOfxFile store sub f = (some st, store1)) :
    st.end_balance = st.start_balance + (st.transactions.map (fun t => t.amount)).sum ∧
    (f.fileTrans.reverse.Pairwise dateLE →
      st.transactions.map (fun t => t.running_total) =
        (runningTotals st.end_balance (st.transactions.map (fun t => t.amount))).map
          some) := by
  rw [parseOfxFile] at h
  by_cases hacc : f.acctid = ""
  · rw [if_pos hacc] at h
    simp at h
  · rw [if_neg hacc] at h
    cases hrev : f.fileTrans.reverse with
    | nil =>
      rw [hrev] at h
      simp at h
    | cons t0 rest =>
      rw [hrev] at h
      dsimp only at h
      cases hrla : readLedgerAmount store sub (dayKey t0.date) with
      | mk balOpt s1 =>
        rw [hrla] at h
        cases balOpt with
        | none => simp at h
        | some bal =>
          dsimp only at h
          injection h with h1 h2
          injection h1 with h1
          subst h1
          have hsum : (List.map (fun t => t.amount)
              (sortByDate (attachRunning bal (t0 :: rest)))).sum =
              (List.map (fun t => t.amount) (t0 :: rest)).sum := by
            rw [sortByDate]
            rw [((List.perm_insertionSort dateLE
              (attachRunning bal (t0 :: rest))).map (fun t => t.amount)).sum_eq]
            rw [attachRunning_map_amount]
          constructor
          · show bal = bal - (List.map (fun t => t.amount) (t0 :: rest)).sum + _
            rw [hsum]
            ring
          · intro hpw
            have hsort : sortByDate (attachRunning bal (t0 :: rest)) =
                attachRunning bal (t0 :: rest) := by
              rw [sortByDate]
              exact List.Sorted.insertionSort_eq (attachRunning_pairwise bal _ hpw)
            show (sortByDate (attachRunning bal (t0 :: rest))).map
                (fun t => t.running_total) = _
            rw [hsort, attachRunning_map_amount, attachRunning_map_running]

/-- Transaction shared by both counterexample files (day 1, +10.00). -/
def txA : Tx :=
  { transaction_id := "idA", date := 1, amount := 10, description := "A"
    type := "DEBIT" }

/-- Transaction only in the second counterexample file (day 2, +5.00). -/
def txB : Tx :=
  { transaction_id := "idB", date := 2, amount := 5, description := "B"
    type := "DEBIT" }

/-- First counterexample file: only `txA`. -/
def ofxC2a : OfxFile := { acctid := "a", fileTrans := [txA] }

/-- Second counterexample file: `txA` and `txB` (newest first), overlapping
the first file in `txA`. -/
def ofxC2b : OfxFile := { acctid := "a", fileTrans := [txB, txA] }

/-- Checkpoint store for the counterexample files (both start on day 1). -/
def storeC2 : LedgerStore := [("b" ++ "|" ++ dayKey (1 : ℚ), some 0)]

/-- The statement `parseOfxFile` builds for `ofxC2b` before any filtering. -/
def stC2b : BStatement :=
  { account_id := "a"
    start_date := txA.date
    end_date := (([txA, txB]).getLastD txA).date
    start_balance := (some (0 : ℚ)).getD 0 - (([txA, txB]).map (fun t => t.amount)).sum
    end_balance := (some (0 : ℚ)).getD 0
    transactions := sortByDate (attachRunning ((some (0 : ℚ)).getD 0) [txA, txB]) }

theorem c2_per_file_balance_amended_witness :
    stC2b.end_balance =
      stC2b.start_balance + (stC2b.transactions.map (fun t => t.amount)).sum ∧
    (ofxC2b.fileTrans.reverse.Pairwise dateLE →
      stC2b.transactions.map (fun t => t.running_total) =
        (runningTotals stC2b.end_balance
          (stC2b.transactions.map (fun t => t.amount))).map some) :=
  c2_per_file_balance_amended storeC2 "b" ofxC2b stC2b storeC2
    (parseOfxFile_found storeC2 "b" ofxC2b txA [txB] (some 0) (by decide) rfl
      (by simp [storeC2, txA, List.lookup]))

/-- The first statement the dedup run keeps (from `ofxC2a`). -/
def stC2one : BStatement :=
  { account_id := "a", start_date := 1, end_date := 1, start_balance := -10
    end_balance := 0
    transactions := [{ transaction_id := "idA", date := 1, amount := 10
                       description := "A", type := "DEBIT", running_total := some 10 }] }

/-- The second statement the dedup run keeps (from `ofxC2b`, `txA` filtered
out as a duplicate, balances NOT recomputed). -/
def stC2two : BStatement :=
  { account_id := "a", start_date := 2, end_date := 2, start_balance := -15
    end_balance := 0
    transactions := [{ transaction_id := "idB", date := 2, amount := 5
                       description := "B", type := "DEBIT", running_total := some 15 }] }

/-- C2 counterexample — after cross-file duplicate filtering the invariant
fails: the second returned statement keeps balances computed over its full
file (closing 0, opening -15) but contains only the +5.00 transaction, and
0 is not -15 + 5. -/
theorem c2_filtered_balance_cex :
    ¬ ∀ st ∈ (parseAllStatements storeC2 "b" [ofxC2a, ofxC2b]).1,
        st.end_balance =
          st.start_balance + (st.transactions.map (fun t => t.amount)).sum := by
  intro hall
  have heval : (parseAllStatements storeC2 "b" [ofxC2a, ofxC2b]).1 =
      [stC2one, stC2two] := by
    norm_num [parseAllStatements, parseAllAux, parseOfxFile, readLedgerAmount,
      filterSeen, attachRunning, sortByDate, List.insertionSort,
      List.orderedInsert, minTxDate, maxTxDate, startDateLE, dateLE,
      List.lookup, List.getLastD, txA, txB, ofxC2a, ofxC2b, storeC2,
      stC2one, stC2two]
  have h2 := hall stC2two (by rw [heval]; simp)
  rw [stC2two] at h2
  norm_num at h2

/-- All transaction ids of a list of statements, in output order. -/
def flatIds (sts : List BStatement) : List String :=
  (sts.map (fun s => s.transactions.map (fun t => t.transaction_id))).flatten

theorem filterSeen_spec (ts : List Tx) : ∀ (seen : List String),
    ((filterSeen seen ts).1.map (fun t => t.transaction_id)).Nodup ∧
    (∀ i ∈ (filterSeen seen ts).1.map (fun t => t.transaction_id), i ∉ seen) ∧
    (∀ i, i ∈ (filterSeen seen ts).2 ↔
      i ∈ seen ∨ i ∈ (filterSeen seen ts).1.map (fun t => t.transaction_id)) := by
  induction ts with
  | nil => intro seen; simp [filterSeen]
  | cons t ts ih =>
    intro seen
    by_cases hc : seen.contains t.transaction_id
    · rw [filterSeen, if_pos hc]
      exact ih seen
    · rw [filterSeen, if_neg hc]
      obtain ⟨h1, h2, h3⟩ := ih (t.transaction_id :: seen)
      have hts : t.transaction_id ∉ seen := by
        intro hmem
        exact hc (List.elem_iff.mpr hmem)
      refine ⟨?_, ?_, ?_⟩
      · refine List.nodup_cons.2 ⟨?_, h1⟩
        intro hmem
        exact (h2 _ hmem) (List.mem_cons_self _ _)
      · intro i hi
        simp only [List.map_cons, List.mem_cons] at hi
        rcases hi with rfl | hi
        · exact hts
        · intro hmem
          exact (h2 i hi) (List.mem_cons_of_mem _ hmem)
      · intro i
        rw [h3 i]
        simp only [List.map_cons, List.mem_cons]
        tauto

theorem parseAllAux_ids (sub : String) (files : List OfxFile) :
    ∀ (seen : List String) (store : LedgerStore),
      (flatIds (parseAllAux sub files seen store).1).Nodup ∧
      ∀ i ∈ flatIds (parseAllAux sub files seen store).1, i ∉ seen := by
  induction files with
  | nil =>
    intro seen store
    simp [parseAllAux, flatIds]
  | cons f fs ih =>
    intro seen store
    rw [parseAllAux]
    cases hpf : parseOfxFile store sub f with
    | mk stOpt store1 =>
      cases stOpt with
      | none => exact ih seen store1
      | some st =>
        obtain ⟨hn, hnotin, hiff⟩ := filterSeen_spec st.transactions seen
        cases hp1 : (filterSeen seen st.transactions).1 with
        | nil =>
          dsimp only
          rw [hp1]
          obtain ⟨ihn, ihnot⟩ := ih (filterSeen seen st.transactions).2 store1
          refine ⟨ihn, fun i hi hmem => ihnot i hi ?_⟩
          exact (hiff i).2 (Or.inl hmem)
        | cons u us =>
          dsimp only
          rw [hp1]
          obtain ⟨ihn, ihnot⟩ := ih (filterSeen seen st.transactions).2 store1
          rw [hp1] at hn hnotin hiff
          have hflat : flatIds
              (List.cons
                { st with transactions := u :: us,
                          start_date := minTxDate u us,
                          end_date := maxTxDate u us }
                (parseAllAux sub fs (filterSeen seen st.transactions).2 store1).1) =
              (u :: us).map (fun t => t.transaction_id) ++
                flatIds (parseAllAux sub fs (filterSeen seen st.transactions).2 store1).1 := by
            simp [flatIds]
          rw [hflat]
          constructor
          · rw [List.nodup_append]
            refine ⟨hn, ihn, ?_⟩
            intro i hiu hirest
            exact ihnot i hirest ((hiff i).2 (Or.inr hiu))
          · intro i hi
            rcases List.mem_append.1 hi with hiu | hirest
            · exact hnotin i hiu
            · intro hmem
              exact ihnot i hirest ((hiff i).2 (Or.inl hmem))

/-- C4 (amended) — the BARCLAYS file loop deduplicates across files: one
seen-identity set spans the whole run, so the merged output's transaction
identities are pairwise distinct, and in the concrete two-file overlap
scenario the shared transaction `idA` is kept exactly once (attributed to the
first file) alongside the second file's own `idB`.  The Virgin file loop has
no such set (see the counterexample). -/
theorem c4_barclays_dedup_amended :
    (∀ (store : LedgerStore) (sub : String) (files : List OfxFile),
      (flatIds (parseAllStatements store sub files).1).Nodup) ∧
    flatIds (parseAllStatements storeC2 "b" [ofxC2a, ofxC2b]).1 = ["idA", "idB"] := by
  constructor
  · intro store sub files
    have h := (parseAllAux_ids sub files [] store).1
    have hperm : flatIds (parseAllStatements store sub files).1 =
        ((((parseAllAux sub files [] store).1.insertionSort startDateLE).map
          (fun s => s.transactions.map (fun t => t.transaction_id))).flatten) := rfl
    rw [hperm]
    have hp : ((((parseAllAux sub files [] store).1.insertionSort startDateLE).map
        (fun s => s.transactions.map (fun t => t.transaction_id))).flatten).Perm
        (flatIds (parseAllAux sub files [] store).1) :=
      ((List.perm_insertionSort startDateLE _).map _).flatten
    exact hp.nodup_iff.2 h
  · norm_num [parseAllStatements, parseAllAux, parseOfxFile, readLedgerAmount,
      filterSeen, attachRunning, sortByDate, List.insertionSort,
      List.orderedInsert, minTxDate, maxTxDate, startDateLE, dateLE,
      List.lookup, List.getLastD, txA, txB, ofxC2a, ofxC2b, storeC2, flatIds]

/-- C4 counterexample — the Virgin file loop keeps a transaction with the
same identity once per file: two files both containing `txA` yield a merged
output with TWO transactions of identity `idA`, not exactly one. -/
theorem c4_virgin_no_dedup_cex :
    (((virginParseAllStatements [("v" ++ "|" ++ dayKey (1 : ℚ), some 0)] "v"
          [[txA], [txA]]).1.map
        (fun s => s.transactions.map (fun t => t.transaction_id))).flatten).count
      "idA" = 2 ∧ (2 : ℕ) ≠ 1 := by
  constructor
  · norm_num [virginParseAllStatements, virginParseAllAux, parseCsvFile,
      readLedgerAmount, attachRunning, sortByDate, List.insertionSort,
      List.orderedInsert, vStartDateLE, List.lookup, List.getLastD, txA,
      List.count_cons]
  · norm_num

theorem c5_missing_checkpoint_witness :
    parseOfxFile [] "acct" ofxC1 =
      (none, [] ++ [("acct" ++ "|" ++ dayKey txX.date, none)]) ∧
    ∀ (fs : List OfxFile) (seen : List String),
      parseAllAux "acct" (ofxC1 :: fs) seen [] =
        parseAllAux "acct" fs seen ([] ++ [("acct" ++ "|" ++ dayKey txX.date, none)]) :=
  c5_missing_checkpoint [] "acct" ofxC1 txX [txY] (by decide) rfl
    (by simp [List.pairwise_cons, dateLE, txX, txY]; norm_num) rfl

theorem c10_empty_checkpoint_zero_witness :
    (parseOfxFile [] "acct" ofxC1).1 = none ∧
    (parseOfxFile [] "acct" ofxC1).2 =
      [] ++ [("acct" ++ "|" ++ dayKey txX.date, none)] ∧
    readLedgerAmount ([] ++ [("acct" ++ "|" ++ dayKey txX.date, none)]) "acct"
        (dayKey txX.date) =
      (some 0, [] ++ [("acct" ++ "|" ++ dayKey txX.date, none)]) ∧
    (parseOfxFile ([] ++ [("acct" ++ "|" ++ dayKey txX.date, none)]) "acct" ofxC1).1.map
        (fun st => (st.end_balance, st.start_balance)) =
      some (0, 0 - (([txX, txY]).map (fun t => t.amount)).sum) :=
  c10_empty_checkpoint_zero [] "acct" ofxC1 txX [txY] (by decide) rfl rfl
